import Mathlib

/-!
Verification of the orchideous build driver (Go) against its specification.

The Go sources are shallowly embedded: pure helpers from the `strings` /
`path/filepath` packages become Lean functions, the filesystem and the
external processes (pkg-config, package managers, compilers) become explicit
oracle parameters, and each Go function under scrutiny is translated
statement by statement.  File modification times are natural numbers
(`ModTime().After` is `<` on `Nat`).
-/

namespace Orchideous

/-! ## Go standard-library primitives

All string operations are implemented by structural recursion over the
character list so that concrete instances evaluate inside the kernel. -/

/-- Split a character list at every occurrence of `sep` (semantics of
`strings.Split`/`SplitSeq` with a one-character separator). -/
def splitOnChar (sep : Char) : List Char → List (List Char)
  | [] => [[]]
  | c :: rest =>
    match splitOnChar sep rest with
    | [] => [[]]
    | h :: t => if c = sep then [] :: h :: t else (c :: h) :: t

/-- Accumulator pass of `strings.Fields`. -/
def fieldsAux : List Char → List Char → List (List Char)
  | [], acc => if acc = [] then [] else [acc.reverse]
  | c :: rest, acc =>
    if c.isWhitespace then
      if acc = [] then fieldsAux rest [] else acc.reverse :: fieldsAux rest []
    else fieldsAux rest (c :: acc)

/-- `strings.Fields`: split around runs of whitespace, dropping empty pieces. -/
def goFields (s : String) : List String :=
  (fieldsAux s.toList []).map String.mk

/-- `strings.HasSuffix` / `String.endsWith`. -/
def strEnds (s suffix : String) : Bool :=
  suffix.toList.isSuffixOf s.toList

/-- `strings.HasPrefix`. -/
def strStarts (s pre : String) : Bool :=
  pre.toList.isPrefixOf s.toList

/-- `strings.TrimSuffix`: drop `suffix` when `s` ends with it, else return `s`. -/
def goTrimSuffix (s suffix : String) : String :=
  if strEnds s suffix then
    String.mk ((s.toList.reverse.drop suffix.toList.length).reverse)
  else s

/-- `strings.Cut(s, ":")`: split around the first colon; `none` when the
line has no colon (Go's `found = false`). -/
def goCutColon (s : String) : Option (String × String) :=
  match splitOnChar ':' s.toList with
  | [] => none
  | [_] => none
  | h :: t => some (String.mk h, String.mk (List.intercalate [':'] t))

/-- `filepath.Ext`: the suffix beginning at the final dot in the final
path element, empty when that element has no dot. -/
def goExt (p : String) : String :=
  let base := (splitOnChar '/' p.toList).getLastD []
  if base.contains '.' then
    String.mk ('.' :: (base.reverse.takeWhile (fun c => c ≠ '.')).reverse)
  else ""

/-- `strings.ToLower` (ASCII, as used on header names). -/
def strLower (s : String) : String :=
  String.mk (s.toList.map Char.toLower)

/-- `strings.TrimSpace`. -/
def strTrim (s : String) : String :=
  String.mk (((s.toList.dropWhile Char.isWhitespace).reverse.dropWhile
    Char.isWhitespace).reverse)

/-- `filepath.Join` for the already-clean relative/absolute operands used by
the build driver (`Join(".", b)` cleans to `b`). -/
def pathJoin (a b : String) : String :=
  if a = "." then b else a ++ "/" ++ b

/-- Helper for `strings.Contains`: is `sub` an infix of the character list? -/
def listInfix (sub : List Char) : List Char → Bool
  | [] => sub.isPrefixOf []
  | c :: rest => sub.isPrefixOf (c :: rest) || listInfix sub (rest)

/-- `strings.Contains`. -/
def strContains (s sub : String) : Bool :=
  listInfix sub.toList s.toList

/-- `strings.ReplaceAll(data, "\\\n", " ")`: join backslash-newline
continuations, scanning left to right. -/
def joinContinuations : List Char → List Char
  | '\\' :: '\n' :: rest => ' ' :: joinContinuations rest
  | c :: rest => c :: joinContinuations rest
  | [] => []

/-- Split a string into lines (`strings.SplitSeq(s, "\n")`). -/
def goLines (s : String) : List String :=
  (splitOnChar '\n' s.toList).map String.mk

/-! ## Filesystem model

`mtime p = some t` models a successful `os.Stat` with modification time `t`;
`content p = some data` models a successful `os.ReadFile`. -/

structure SysFS where
  mtime : String → Option Nat
  content : String → Option String

/-- `fileExists` from detect.go: `os.Stat` succeeds. -/
def fileExists (fs : SysFS) (p : String) : Bool :=
  (fs.mtime p).isSome

/-! ## IncrementalBuildPlanner: `needsRecompile` (part_001 lines 613-649) -/

/-- Join backslash-newline continuations and split a `.d` file into lines
(`strings.ReplaceAll(string(data), "\\\n", " ")` then split on newlines). -/
def depLines (data : String) : List String :=
  goLines (String.mk (joinContinuations data.toList))

/-- Dependencies contributed by one `.d`-file line: the text after the first
`:` split on whitespace; nothing when the line has no `:`. -/
def lineDeps (line : String) : List String :=
  match goCutColon line with
  | none => []
  | some p => goFields p.2

/-- Is `dep` an existing file strictly newer than time `objT`? -/
def depNewer (fs : SysFS) (objT : Nat) (dep : String) : Bool :=
  match fs.mtime dep with
  | none => false
  | some depT => decide (objT < depT)

/-- `needsRecompile` from part_001: recompile when the source cannot be
stat-ed, the object is missing, the source is strictly newer than the object,
or some dependency listed in the object's sibling `.d` file is strictly newer
than the object; a missing/unreadable `.d` file trusts the source check. -/
def needsRecompile (fs : SysFS) (src obj : String) : Bool :=
  match fs.mtime src with
  | none => true
  | some srcT =>
    match fs.mtime obj with
    | none => true
    | some objT =>
      if objT < srcT then true
      else
        match fs.content (goTrimSuffix obj ".o" ++ ".d") with
        | none => false
        | some data =>
          (depLines data).any (fun line => (lineDeps line).any (depNewer fs objT))

/-- The full dependency list parsed from the object's sibling `.d` file, as
the specification describes it: continuations joined, each line's text after
the first `:` split on whitespace, all lines combined. -/
def depPaths (fs : SysFS) (obj : String) : List String :=
  match fs.content (goTrimSuffix obj ".o" ++ ".d") with
  | none => []
  | some data => (depLines data).flatMap lineDeps

/-- The staleness condition exactly as the specification words it: the object
does not exist, or the source is strictly newer, or some parsed dependency
names an existing file strictly newer than the object. -/
def staleClaim (fs : SysFS) (src obj : String) : Prop :=
  fs.mtime obj = none
  ∨ (∃ ts tOb, fs.mtime src = some ts ∧ fs.mtime obj = some tOb ∧ tOb < ts)
  ∨ (∃ dep ∈ depPaths fs obj, ∃ td tOb, fs.mtime dep = some td ∧ fs.mtime obj = some tOb ∧ tOb < td)

lemma scanDeps_iff (fs : SysFS) (objT : Nat) (data : String) :
    ((depLines data).any (fun line => (lineDeps line).any (depNewer fs objT)) = true)
      ↔ ∃ dep ∈ (depLines data).flatMap lineDeps, ∃ td, fs.mtime dep = some td ∧ objT < td := by
  simp only [List.any_eq_true, List.mem_flatMap]
  constructor
  · rintro ⟨line, hline, dep, hdep, hnew⟩
    refine ⟨dep, ⟨line, hline, hdep⟩, ?_⟩
    unfold depNewer at hnew
    cases h : fs.mtime dep with
    | none => rw [h] at hnew; simp at hnew
    | some td => rw [h] at hnew; exact ⟨td, rfl, by simpa using hnew⟩
  · rintro ⟨dep, ⟨line, hline, hdep⟩, td, hmt, hlt⟩
    refine ⟨line, hline, dep, hdep, ?_⟩
    unfold depNewer
    rw [hmt]
    simpa using hlt

/-- C1: for an existing source with object path `obj`, `needsRecompile`
schedules recompilation iff the object is missing, the source is strictly
newer than the object, or some dependency parsed from the object's sibling
`.d` file (continuations joined, text after the first `:` split on
whitespace) names an existing file strictly newer than the object. -/
theorem needsRecompile_iff_stale (fs : SysFS) (src obj : String)
    (h : (fs.mtime src).isSome = true) :
    needsRecompile fs src obj = true ↔ staleClaim fs src obj := by
  cases hs : fs.mtime src with
  | none => rw [hs] at h; simp at h
  | some ts =>
    cases ho : fs.mtime obj with
    | none =>
      unfold needsRecompile staleClaim
      rw [hs, ho]
      simp
    | some tOb =>
      unfold needsRecompile staleClaim
      rw [hs, ho]
      by_cases hlt : tOb < ts
      · simp only [if_pos hlt]
        constructor
        · intro _
          exact Or.inr (Or.inl ⟨ts, tOb, rfl, rfl, hlt⟩)
        · intro _; trivial
      · simp only [if_neg hlt]
        have hobj : ¬ ((some tOb : Option Nat) = none) := by simp
        have hsecond : ¬ (∃ ts' tOb', (some ts : Option Nat) = some ts' ∧
            (some tOb : Option Nat) = some tOb' ∧ tOb' < ts') := by
          rintro ⟨ts', tOb', h1, h2, h3⟩
          cases h1; cases h2
          exact hlt h3
        cases hc : fs.content (goTrimSuffix obj ".o" ++ ".d") with
        | none =>
          unfold depPaths
          rw [hc]
          simp only [hobj, hsecond, false_or]
          constructor
          · intro hfalse; exact absurd hfalse (by simp)
          · rintro ⟨dep, hdep, _⟩; simp at hdep
        | some data =>
          unfold depPaths
          rw [hc]
          rw [scanDeps_iff fs tOb data]
          simp only [hobj, hsecond, false_or]
          constructor
          · rintro ⟨dep, hdep, td, hmt, hlt'⟩
            exact ⟨dep, hdep, td, tOb, hmt, rfl, hlt'⟩
          · rintro ⟨dep, hdep, td, tOb', hmt, hto, hlt'⟩
            cases hto
            exact ⟨dep, hdep, td, hmt, hlt'⟩

/-- Concrete filesystem: `a.cpp` (mtime 5) compiled earlier to `a.o`
(mtime 3), no `.d` file. -/
def fsC1 : SysFS where
  mtime := fun p => if p = "a.cpp" then some 5 else if p = "a.o" then some 3 else none
  content := fun _ => none

theorem needsRecompile_iff_stale_witness :
    needsRecompile fsC1 "a.cpp" "a.o" = true ↔ staleClaim fsC1 "a.cpp" "a.o" :=
  needsRecompile_iff_stale fsC1 "a.cpp" "a.o" (by decide)

/-- C9: when the object exists and the source is not strictly newer, a
missing/unreadable `.d` file makes the source count as up to date — no header
modification can trigger a recompile. -/
theorem needsRecompile_noDepFile (fs : SysFS) (src obj : String) (ts tOb : Nat)
    (hs : fs.mtime src = some ts) (ho : fs.mtime obj = some tOb)
    (hnotnew : ¬ tOb < ts)
    (hd : fs.content (goTrimSuffix obj ".o" ++ ".d") = none) :
    needsRecompile fs src obj = false := by
  simp [needsRecompile, hs, ho, hnotnew, hd]

/-- Concrete filesystem for C9: object as new as the source, every header
arbitrarily newer, and no `.d` file — still up to date. -/
def fsC9 : SysFS where
  mtime := fun p =>
    if p = "a.cpp" then some 3 else if p = "a.o" then some 3 else some 100
  content := fun _ => none

theorem needsRecompile_noDepFile_witness :
    needsRecompile fsC9 "a.cpp" "a.o" = false :=
  needsRecompile_noDepFile fsC9 "a.cpp" "a.o" 3 3 (by decide) (by decide)
    (by decide) (by decide)

/-! ## IncrementalBuildPlanner: `compileSources` (part_001 lines 522-595)

Compiler and linker invocations are recorded as commands; each executed
compile writes its object file and (via `-MMD`) its sibling `.d` file, the
executed link writes the output binary.  `okCompile`/`okLink` are the exit
statuses of the child processes. -/

inductive BCmd where
  | compileLink (srcs : List String)
  | compile (src : String)
  | link
  deriving DecidableEq, Repr

structure CompileRes where
  cmds : List BCmd
  writes : List String
  upToDate : Bool
  err : Option String
  deriving DecidableEq, Repr

/-- Object path of a source: same stem, `.o` extension
(`strings.TrimSuffix(src, filepath.Ext(src)) + ".o"`). -/
def objOf (src : String) : String :=
  goTrimSuffix src (goExt src) ++ ".o"

/-- The per-source loop of `compileSources`: skip sources that do not need
recompiling; otherwise record a compile (writing `.o` and `.d`), aborting on
the first failed compile. Returns accumulated commands, writes, the
`needLink` flag, and an error if a compile failed. -/
def compileLoop (fs : SysFS) (okCompile : String → Bool) :
    List String → List BCmd → List String → Bool →
    (List BCmd × List String × Bool × Option String)
  | [], cmds, writes, needLink => (cmds, writes, needLink, none)
  | src :: rest, cmds, writes, needLink =>
    let obj := objOf src
    if needsRecompile fs src obj = false then
      compileLoop fs okCompile rest cmds writes needLink
    else
      let cmds' := cmds ++ [BCmd.compile src]
      let writes' := writes ++ [obj, goTrimSuffix obj ".o" ++ ".d"]
      if okCompile src then compileLoop fs okCompile rest cmds' writes' true
      else (cmds', writes', true, some ("compiling " ++ src))

/-- `compileSources` from part_001: a single source is compiled and linked in
one invocation; with several sources each stale source is compiled to an
object, then a link is performed when some source was recompiled or the
output binary is missing, else the build reports "up to date". -/
def compileSources (fs : SysFS) (okCompile : String → Bool) (okLink : Bool)
    (srcs : List String) (output : String) : CompileRes :=
  if srcs.length = 1 then
    { cmds := [BCmd.compileLink srcs], writes := [output], upToDate := false
      err := if okCompile (srcs.headD "") then none else some "compilation failed" }
  else
    match compileLoop fs okCompile srcs [] [] false with
    | (cmds, writes, _, some e) =>
      { cmds := cmds, writes := writes, upToDate := false, err := some e }
    | (cmds, writes, needLink, none) =>
      let needLink' := needLink || !(fileExists fs output)
      if needLink' = false then
        { cmds := cmds, writes := writes, upToDate := true, err := none }
      else
        { cmds := cmds ++ [BCmd.link], writes := writes ++ [output]
          upToDate := false, err := if okLink then none else some "linking failed" }

lemma compileLoop_fresh (fs : SysFS) (okCompile : String → Bool)
    (srcs : List String)
    (hall : ∀ src ∈ srcs, needsRecompile fs src (objOf src) = false) :
    ∀ cmds writes needLink,
      compileLoop fs okCompile srcs cmds writes needLink = (cmds, writes, needLink, none) := by
  induction srcs with
  | nil => intro cmds writes needLink; rfl
  | cons src rest ih =>
    intro cmds writes needLink
    have hsrc : needsRecompile fs src (objOf src) = false :=
      hall src (List.mem_cons_self src rest)
    have hrest : ∀ s ∈ rest, needsRecompile fs s (objOf s) = false := by
      intro s hs; exact hall s (List.mem_cons_of_mem src hs)
    unfold compileLoop
    rw [if_pos hsrc]
    exact ih hrest cmds writes needLink

/-- C2: in a multi-source build in which no source needs recompilation and the
output binary exists, `compileSources` runs zero compiler or linker commands,
reports "up to date", succeeds, and writes nothing to the filesystem. -/
theorem compileSources_upToDate (fs : SysFS) (okCompile : String → Bool)
    (okLink : Bool) (srcs : List String) (output : String)
    (hmulti : 2 ≤ srcs.length)
    (hfresh : ∀ src ∈ srcs, needsRecompile fs src (objOf src) = false)
    (hout : fileExists fs output = true) :
    compileSources fs okCompile okLink srcs output =
      { cmds := [], writes := [], upToDate := true, err := none } := by
  have hne : ¬ srcs.length = 1 := by omega
  unfold compileSources
  rw [if_neg hne, compileLoop_fresh fs okCompile srcs hfresh [] [] false]
  simp [hout]

/-- Concrete up-to-date project: two sources, both objects newer, binary
present. -/
def fsC2 : SysFS where
  mtime := fun p =>
    if p = "main.cpp" then some 1 else if p = "util.cpp" then some 1
    else if p = "main.o" then some 2 else if p = "util.o" then some 2
    else if p = "proj" then some 3 else none
  content := fun _ => none

theorem compileSources_upToDate_witness :
    compileSources fsC2 (fun _ => true) true ["main.cpp", "util.cpp"] "proj" =
      { cmds := [], writes := [], upToDate := true, err := none } :=
  compileSources_upToDate fsC2 (fun _ => true) true ["main.cpp", "util.cpp"] "proj"
    (by decide) (by decide) (by decide)

/-! ## SourceScanner: main-source and test detection (detect.go)

`DirFS` models the project tree: a list of (path, contents) pairs in the
lexical order in which `filepath.Glob` reports matches. -/

structure DirFS where
  files : List (String × String)

def dfExists (fs : DirFS) (p : String) : Bool :=
  fs.files.any (fun e => e.1 = p)

def dfContent (fs : DirFS) (p : String) : Option String :=
  (fs.files.find? (fun e => e.1 = p)).map (fun e => e.2)

/-- Drop the first `n` characters. -/
def strDropN (s : String) (n : Nat) : String :=
  String.mk (s.toList.drop n)

/-- `filepath.Glob(filepath.Join(dir, "*" ++ suffix))`: one-level matches in
`dir` whose base name ends with `suffix`, with the directory prefix kept in
the result (as Go returns them). -/
def dfGlob (fs : DirFS) (dir suffix : String) : List String :=
  (fs.files.map (fun e => e.1)).filter (fun n =>
    if dir = "." then !(strContains n "/") && strEnds n suffix
    else strStarts n (dir ++ "/")
      && !(strContains (strDropN n (dir.length + 1)) "/")
      && strEnds n suffix)

/-- `SourceExts` from detect.go. -/
def SourceExts : List String := [".cpp", ".cc", ".cxx", ".c"]

/-- `localCommonPaths` from detect.go. -/
def localCommonPaths : List String := ["common", "Common", "../common", "../Common"]

/-- `localIncludePaths` from detect.go. -/
def localIncludePaths : List String :=
  [".", "include", "Include", "..", "../include", "../Include",
   "common", "Common", "../common", "../Common"]

/-- `uniqueStrings` (Linux behavior: paths are already clean, keys are
case-sensitive): order-preserving de-duplication. -/
def uniqAux : List String → List String → List String
  | [], _ => []
  | s :: rest, seen =>
    if s ∈ seen then uniqAux rest seen else s :: uniqAux rest (s :: seen)

def uniqueStrings (strs : List String) : List String :=
  uniqAux strs []

/-- `isTestFile`: base name (extension stripped) ends in `_test` or equals
`test`. -/
def isTestFile (path : String) : Bool :=
  let base := String.mk ((splitOnChar '/' path.toList).getLastD [])
  let ext := goExt base
  let name := goTrimSuffix base ext
  strEnds name "_test" || name = "test"

/-- `containsMain`: line scan for a `main(` / `SDL_main(` token, skipping
`//`-comment lines; an unreadable file counts as not containing main. -/
def containsMain (fs : DirFS) (filename : String) : Bool :=
  match dfContent fs filename with
  | none => false
  | some data =>
    (goLines data).any (fun line =>
      let trimmed := strTrim line
      if strStarts trimmed "//" then false
      else
        strContains line " main(" || strStarts trimmed "main(" ||
        strContains line " SDL_main(" || strStarts trimmed "SDL_main(" ||
        strContains line " main (" || strStarts trimmed "main (")

/-- `getTestSources`: `*_test.<ext>` globs plus the first existing
`test.<ext>` per search directory, de-duplicated. -/
def getTestSources (fs : DirFS) : List String :=
  let searchDirs := "." :: localCommonPaths
  let tests := searchDirs.flatMap (fun dir =>
    (SourceExts.flatMap (fun ext => dfGlob fs dir ("_test" ++ ext)))
    ++ (match SourceExts.findSome? (fun ext =>
          let name := pathJoin dir ("test" ++ ext)
          if dfExists fs name then some name else none) with
        | some name => [name]
        | none => []))
  uniqueStrings tests

/-- The shared tail of `GetMainSourceFile`: a single candidate is accepted
only if it contains main; among several the first containing main wins. -/
def gmsfTail (fs : DirFS) (allSrcs : List String) : String :=
  if allSrcs.length = 1 then
    if containsMain fs (allSrcs.headD "") then allSrcs.headD "" else ""
  else
    match allSrcs.find? (fun s => containsMain fs s) with
    | some s => s
    | none => ""

/-- `GetMainSourceFile` from detect.go: explicit `main.<ext>` first, then
non-test root sources, then the `src/` fallback. -/
def GetMainSourceFile (fs : DirFS) (testSrcs : List String) : String :=
  match SourceExts.findSome? (fun ext =>
      if dfExists fs ("main" ++ ext) then some ("main" ++ ext) else none) with
  | some name => name
  | none =>
    let allSrcs := SourceExts.flatMap (fun ext =>
      (dfGlob fs "." ext).filter (fun m => !(testSrcs.contains m) && !(isTestFile m)))
    if allSrcs = [] then
      match SourceExts.findSome? (fun ext =>
          let name := pathJoin "src" ("main" ++ ext)
          if dfExists fs name then some name else none) with
      | some name => name
      | none =>
        let allSrcs2 := SourceExts.flatMap (fun ext =>
          (dfGlob fs "src" ext).filter (fun m => !(isTestFile m)))
        if allSrcs2 = [] then "" else gmsfTail fs allSrcs2
    else gmsfTail fs allSrcs

/-- Outcomes of `doBuildWithDirOverrides` before flag assembly (part_001
lines 484-497): `errNoSources` is the returned error "no source files
found", `nothingToBuild` is the silent "No main source file found, nothing
to build" success, `build` proceeds to compile. -/
inductive BuildOutcome where
  | errNoSources
  | nothingToBuild
  | build
  deriving DecidableEq, Repr

def doBuildOutcome (mainSource : String) (testSources : List String) : BuildOutcome :=
  if mainSource = "" ∧ testSources = [] then BuildOutcome.errNoSources
  else if mainSource = "" then BuildOutcome.nothingToBuild
  else BuildOutcome.build

/-- A directory whose only source file is a library source without `main`. -/
def fsLibOnly : DirFS :=
  ⟨[("lib.cpp", "void foo() \x7b\x7d\n")]⟩

/-- C5 counterexample: with only `lib.cpp` (no `main`, no tests) detection
yields an empty main source, but `doBuildWithDirOverrides` returns the error
"no source files found" — not the claimed non-error "nothing to build". -/
theorem doBuildOutcome_libOnly_counterexample :
    GetMainSourceFile fsLibOnly (getTestSources fsLibOnly) = ""
    ∧ getTestSources fsLibOnly = []
    ∧ doBuildOutcome (GetMainSourceFile fsLibOnly (getTestSources fsLibOnly))
        (getTestSources fsLibOnly) = BuildOutcome.errNoSources
    ∧ BuildOutcome.errNoSources ≠ BuildOutcome.nothingToBuild := by
  refine ⟨by decide, by decide, by decide, by decide⟩

/-- C5 amended: a project with an empty detected main source is a fatal
"no source files found" error when there are no test sources; the silent
"nothing to build" outcome occurs exactly when test sources exist. -/
theorem doBuildOutcome_noMain (fs : DirFS)
    (hms : GetMainSourceFile fs (getTestSources fs) = "") :
    (getTestSources fs = [] →
      doBuildOutcome (GetMainSourceFile fs (getTestSources fs)) (getTestSources fs)
        = BuildOutcome.errNoSources)
    ∧ (getTestSources fs ≠ [] →
      doBuildOutcome (GetMainSourceFile fs (getTestSources fs)) (getTestSources fs)
        = BuildOutcome.nothingToBuild) := by
  rw [hms]
  unfold doBuildOutcome
  constructor
  · intro hts
    rw [if_pos ⟨rfl, hts⟩]
  · intro hts
    rw [if_neg (fun h => hts h.2), if_pos rfl]

theorem doBuildOutcome_noMain_witness :
    doBuildOutcome (GetMainSourceFile fsLibOnly (getTestSources fsLibOnly))
      (getTestSources fsLibOnly) = BuildOutcome.errNoSources :=
  (doBuildOutcome_noMain fsLibOnly (by decide)).1 (by decide)

/-! ## `Build` working-directory discipline (part_001 lines 22-67)

The process state tracks the current working directory and the set of
existing directories (immutable during one run). `os.Chdir` succeeds iff the
target exists; `os.Getwd` succeeds iff the current directory still exists.
On the compile-failure path `recommendPackage` may call `os.Exit(1)`, which
terminates the process without running the deferred restore. -/

structure SysState where
  dirs : List String
  cwd : String

def chdir (s : SysState) (d : String) : SysState × Bool :=
  if d ∈ s.dirs then ({ s with cwd := d }, true) else (s, false)

def getwd (s : SysState) : Option String :=
  if s.cwd ∈ s.dirs then some s.cwd else none

inductive BuildPath where
  | getwdFailed
  | chdirFailed
  | noMain
  | compileErrExited
  | compileErrReturned
  | ok
  deriving DecidableEq, Repr

/-- `Build` from part_001: save the working directory, change into the source
directory, defer the restore, then detect and compile.  `hasMain` abstracts
`proj.MainSource != ""`, `compileOk` the compile-and-link result, and
`recommendExits` whether `recommendPackage` finds an installable package for
a missing header and calls `os.Exit(1)`. -/
def buildRun (s : SysState) (sourceDir : String) (hasMain compileOk recommendExits : Bool) :
    SysState × BuildPath :=
  match getwd s with
  | none => (s, BuildPath.getwdFailed)
  | some origDir =>
    match chdir s sourceDir with
    | (s1, false) => (s1, BuildPath.chdirFailed)
    | (s1, true) =>
      if hasMain = false then
        ((chdir s1 origDir).1, BuildPath.noMain)
      else if compileOk = false then
        if recommendExits then (s1, BuildPath.compileErrExited)
        else ((chdir s1 origDir).1, BuildPath.compileErrReturned)
      else
        ((chdir s1 origDir).1, BuildPath.ok)

/-- C10: whenever the initial `os.Getwd` succeeds, `Build` returns with the
working directory restored to its entry value on every returning path —
success, missing main source, and compile/link failure (the `os.Exit` path
inside `recommendPackage` terminates the process and never returns). -/
theorem buildRun_restores_cwd (s : SysState) (sourceDir : String)
    (hasMain compileOk recommendExits : Bool) (d : String)
    (hwd : getwd s = some d)
    (hret : (buildRun s sourceDir hasMain compileOk recommendExits).2 ≠ BuildPath.compileErrExited) :
    (buildRun s sourceDir hasMain compileOk recommendExits).1.cwd = d := by
  have hc : s.cwd ∈ s.dirs := by
    unfold getwd at hwd
    by_cases h : s.cwd ∈ s.dirs
    · exact h
    · rw [if_neg h] at hwd
      exact absurd hwd (by simp)
  have hd : d = s.cwd := by
    unfold getwd at hwd
    rw [if_pos hc] at hwd
    exact (Option.some_inj.mp hwd).symm
  subst hd
  by_cases hsrc : sourceDir ∈ s.dirs <;>
    cases hasMain <;> cases compileOk <;> cases recommendExits <;>
    simp_all [buildRun, chdir, getwd, hc]

/-- Concrete state for the C10 witness: build in `/proj` from `/home`, with a
compile failure that returns (no install recommendation fired). -/
def stC10 : SysState := ⟨["/home", "/proj"], "/home"⟩

theorem buildRun_restores_cwd_witness :
    (buildRun stC10 "/proj" true false false).1.cwd = "/home" :=
  buildRun_restores_cwd stC10 "/proj" true false false "/home" (by decide) (by decide)

/-! ## win64 auto-detection (detect.go lines 161-167, part_001 lines 38-49
and 188-207) -/

/-- The three `windows.h` include spellings recognized by
`scanSourceForFlags`. -/
def win64Spellings : List String :=
  ["#include <windows.h>", "#include \"windows.h\"", "#include<windows.h>"]

/-- The `HasWin64` detection of `scanSourceForFlags`: some scanned line
contains one of the recognized spellings. -/
def scanHasWin64 (data : String) : Bool :=
  (goLines data).any (fun line => win64Spellings.any (fun wh => strContains line wh))

/-- The option adjustment at the top of `Build`/`doBuildWithDirOverrides`:
`if proj.HasWin64 && !opts.Win64 then opts.Win64 = true`. -/
def autoWin64 (optWin64 hasWin64 : Bool) : Bool :=
  if hasWin64 && !optWin64 then true else optWin64

/-- Executable naming: `.exe` appended when `opts.Win64 || proj.HasWin64`. -/
def exeName (base : String) (optWin64 hasWin64 : Bool) : String :=
  if optWin64 || hasWin64 then base ++ ".exe" else base

/-- Compiler selection from `assembleFlags` (part_001 lines 191-203):
zapcc++ when requested and found, else the win64 cross-compiler when
targeting win64, else the native compiler. `zapPath` is `LookPath("zapcc++")`,
`win64Compiler` is `findWin64Compiler` ("" when unavailable), `nativeCompiler`
is `findCompiler`. -/
def selectCompiler (zap : Bool) (zapPath : Option String) (win64 : Bool)
    (win64Compiler nativeCompiler : String) : String :=
  let c := if zap then (match zapPath with | some p => p | none => "") else ""
  let c := if c = "" && win64 then win64Compiler else c
  if c = "" then nativeCompiler else c

/-- C8: a scanned source containing a recognized `windows.h` include makes
the build target win64 although the win64 option was not given: the
executable name gets an `.exe` suffix, and when a win64 cross-compiler is
available (and zapcc was not both requested and found) it is selected. -/
theorem win64_auto_detect (data base : String) (optWin64 zap : Bool)
    (zapPath : Option String) (win64Compiler nativeCompiler : String)
    (hscan : scanHasWin64 data = true)
    (hopt : optWin64 = false)
    (hzap : zap = false ∨ zapPath = none)
    (havail : win64Compiler ≠ "") :
    strEnds (exeName base (autoWin64 optWin64 (scanHasWin64 data)) (scanHasWin64 data))
        ".exe" = true
    ∧ selectCompiler zap zapPath
        (autoWin64 optWin64 (scanHasWin64 data) || scanHasWin64 data)
        win64Compiler nativeCompiler = win64Compiler := by
  rw [hscan, hopt]
  constructor
  · show strEnds (base ++ ".exe") ".exe" = true
    unfold strEnds
    have : (base ++ ".exe").toList = base.toList ++ ".exe".toList := by
      simp [String.toList, String.data_append]
    rw [this]
    simp [List.isSuffixOf_iff_suffix]
  · unfold selectCompiler autoWin64
    rcases hzap with hz | hz
    · rw [hz]
      simp [havail]
    · rw [hz]
      cases zap <;> simp [havail]

/-- C8 witness: a source including `<windows.h>`, default options, cross
compiler present. -/
theorem win64_auto_detect_witness :
    strEnds (exeName "proj"
        (autoWin64 false (scanHasWin64 "#include <windows.h>\nint main() \x7b\x7d\n"))
        (scanHasWin64 "#include <windows.h>\nint main() \x7b\x7d\n")) ".exe" = true
    ∧ selectCompiler false none
        (autoWin64 false (scanHasWin64 "#include <windows.h>\nint main() \x7b\x7d\n")
          || scanHasWin64 "#include <windows.h>\nint main() \x7b\x7d\n")
        "/usr/bin/x86_64-w64-mingw32-g++" "/usr/bin/g++"
      = "/usr/bin/x86_64-w64-mingw32-g++" :=
  win64_auto_detect "#include <windows.h>\nint main() \x7b\x7d\n" "proj" false false
    none "/usr/bin/x86_64-w64-mingw32-g++" "/usr/bin/g++"
    (by decide) (by decide) (Or.inl rfl) (by decide)

/-! ## Flag merging (part_004 lines 318-327 and 457-462) -/

/-- `appendUnique`: append unless already present (`slices.Contains`). -/
def appendUnique (slice : List String) (val : String) : List String :=
  if val ∈ slice then slice else slice ++ [val]

/-- The link-flag test of `mergeFlags`: token starts with `-l`, `-L`, or
`-Wl,` (with the comma). -/
def isLinkFlag (f : String) : Bool :=
  strStarts f "-l" || strStarts f "-L" || strStarts f "-Wl,"

/-- One step of `mergeFlags`' token loop. -/
def mergeTok (p : List String × List String) (f : String) : List String × List String :=
  if isLinkFlag f then (p.1, appendUnique p.2 f) else (appendUnique p.1 f, p.2)

/-- `mergeFlags`: split pkg-config output into fields and route each token to
the link or compile list. -/
def mergeFlags (cflags ldflags : List String) (flags : String) :
    List String × List String :=
  (goFields flags).foldl mergeTok (cflags, ldflags)

lemma appendUnique_mem_self (l : List String) (v : String) : v ∈ appendUnique l v := by
  unfold appendUnique
  by_cases h : v ∈ l
  · rwa [if_pos h]
  · rw [if_neg h]; simp

lemma appendUnique_front (l : List String) (v : String) : l <+: appendUnique l v := by
  unfold appendUnique
  by_cases h : v ∈ l
  · rw [if_pos h]
  · rw [if_neg h]; exact ⟨[v], rfl⟩

lemma appendUnique_nodup (l : List String) (v : String) (h : l.Nodup) :
    (appendUnique l v).Nodup := by
  unfold appendUnique
  by_cases hv : v ∈ l
  · rwa [if_pos hv]
  · rw [if_neg hv]
    simpa [List.nodup_append] using ⟨h, hv⟩

lemma appendUnique_eq_of_mem (l : List String) (v : String) (h : v ∈ l) :
    appendUnique l v = l := by
  unfold appendUnique
  rw [if_pos h]

lemma mergeFold_front (toks : List String) (p : List String × List String) :
    p.1 <+: (toks.foldl mergeTok p).1 ∧ p.2 <+: (toks.foldl mergeTok p).2 := by
  induction toks generalizing p with
  | nil => exact ⟨List.prefix_rfl, List.prefix_rfl⟩
  | cons tok rest ih =>
    rw [List.foldl_cons]
    have hstep : p.1 <+: (mergeTok p tok).1 ∧ p.2 <+: (mergeTok p tok).2 := by
      unfold mergeTok
      by_cases h : isLinkFlag tok = true
      · rw [if_pos h]; exact ⟨List.prefix_rfl, appendUnique_front _ _⟩
      · rw [if_neg h]; exact ⟨appendUnique_front _ _, List.prefix_rfl⟩
    exact ⟨hstep.1.trans (ih (mergeTok p tok)).1, hstep.2.trans (ih (mergeTok p tok)).2⟩

lemma mergeFold_routes (toks : List String) (p : List String × List String)
    (tok : String) (htok : tok ∈ toks) :
    (isLinkFlag tok = true → tok ∈ (toks.foldl mergeTok p).2)
    ∧ (isLinkFlag tok = false → tok ∈ (toks.foldl mergeTok p).1) := by
  induction toks generalizing p with
  | nil => cases htok
  | cons t rest ih =>
    rw [List.foldl_cons]
    rcases List.mem_cons.mp htok with heq | hmem
    · subst heq
      constructor
      · intro hlink
        refine (mergeFold_front rest (mergeTok p tok)).2.subset ?_
        unfold mergeTok
        rw [if_pos hlink]
        exact appendUnique_mem_self _ _
      · intro hlink
        refine (mergeFold_front rest (mergeTok p tok)).1.subset ?_
        unfold mergeTok
        rw [if_neg (by rw [hlink]; simp)]
        exact appendUnique_mem_self _ _
    · exact ih (mergeTok p t) hmem

lemma mergeFold_stable (toks : List String) (p : List String × List String)
    (h : ∀ tok ∈ toks, (isLinkFlag tok = true → tok ∈ p.2)
      ∧ (isLinkFlag tok = false → tok ∈ p.1)) :
    toks.foldl mergeTok p = p := by
  induction toks with
  | nil => rfl
  | cons t rest ih =>
    rw [List.foldl_cons]
    have hstep : mergeTok p t = p := by
      unfold mergeTok
      by_cases hl : isLinkFlag t = true
      · rw [if_pos hl, appendUnique_eq_of_mem _ _ ((h t (by simp)).1 hl)]
      · rw [if_neg hl,
          appendUnique_eq_of_mem _ _ ((h t (by simp)).2 (Bool.not_eq_true _ ▸ hl))]
    rw [hstep]
    exact ih (fun tok htok => h tok (List.mem_cons_of_mem t htok))

lemma mergeFold_nodup (toks : List String) (p : List String × List String)
    (h1 : p.1.Nodup) (h2 : p.2.Nodup) :
    (toks.foldl mergeTok p).1.Nodup ∧ (toks.foldl mergeTok p).2.Nodup := by
  induction toks generalizing p with
  | nil => exact ⟨h1, h2⟩
  | cons t rest ih =>
    rw [List.foldl_cons]
    unfold mergeTok
    by_cases hl : isLinkFlag t = true
    · rw [if_pos hl]
      exact ih _ h1 (appendUnique_nodup _ _ h2)
    · rw [if_neg hl]
      exact ih _ (appendUnique_nodup _ _ h1) h2

/-- C7: `mergeFlags` routes each whitespace-separated token to the link list
iff it starts with `-l`, `-L`, or `-Wl,`, and to the compile list otherwise;
both input lists are preserved as prefixes (first-seen order kept), merging
the same flag string again changes nothing, and no token is ever
duplicated. -/
theorem mergeFlags_spec (c l : List String) (s : String) :
    (∀ tok ∈ goFields s,
      (isLinkFlag tok = true → tok ∈ (mergeFlags c l s).2)
      ∧ (isLinkFlag tok = false → tok ∈ (mergeFlags c l s).1))
    ∧ c <+: (mergeFlags c l s).1
    ∧ l <+: (mergeFlags c l s).2
    ∧ mergeFlags (mergeFlags c l s).1 (mergeFlags c l s).2 s = mergeFlags c l s
    ∧ (c.Nodup → l.Nodup → (mergeFlags c l s).1.Nodup ∧ (mergeFlags c l s).2.Nodup) := by
  refine ⟨fun tok htok => mergeFold_routes (goFields s) (c, l) tok htok,
    (mergeFold_front (goFields s) (c, l)).1,
    (mergeFold_front (goFields s) (c, l)).2, ?_, ?_⟩
  · exact mergeFold_stable (goFields s) _
      (fun tok htok => mergeFold_routes (goFields s) (c, l) tok htok)
  · exact fun h1 h2 => mergeFold_nodup (goFields s) (c, l) h1 h2

/-- C7 witness: concrete merge of a pkg-config output line. -/
theorem mergeFlags_spec_witness :
    "-lm" ∈ (mergeFlags ["-O2"] [] "-I/usr/include -lm").2
    ∧ mergeFlags (mergeFlags ["-O2"] [] "-I/usr/include -lm").1
        (mergeFlags ["-O2"] [] "-I/usr/include -lm").2 "-I/usr/include -lm"
      = mergeFlags ["-O2"] [] "-I/usr/include -lm"
    ∧ (mergeFlags ["-O2"] [] "-I/usr/include -lm").1.Nodup :=
  have h := mergeFlags_spec ["-O2"] [] "-I/usr/include -lm"
  ⟨(h.1 "-lm" (by decide)).1 (by decide), h.2.2.2.1,
    (h.2.2.2.2 (by simp) (by simp)).1⟩

/-! ## Environment flag overrides (part_001 lines 469-474)

The only environment variable consulted at the end of `assembleFlags` is
`CXXFLAGS`; its fields are appended to the compile flags and the function
returns. -/

structure EnvMap where
  get : String → String

/-- The final environment-override step of `assembleFlags`, translated from
the source: append the fields of `CXXFLAGS` (when non-empty) to the compile
flags; nothing else is read and the link flags are untouched. -/
def appendEnvFlags (env : EnvMap) (cflags ldflags : List String) :
    List String × List String :=
  let userFlags := env.get "CXXFLAGS"
  if userFlags ≠ "" then (cflags ++ goFields userFlags, ldflags)
  else (cflags, ldflags)

/-- Environment of the failing input: a C project's `CFLAGS` and `LDFLAGS`
are set, `CXXFLAGS` is not. -/
def envC4 : EnvMap :=
  ⟨fun k => if k = "CFLAGS" then "-DTEST_CFLAG -march=native"
    else if k = "LDFLAGS" then "-Wl,-z,relro,-z,now" else ""⟩

/-- Environment with only `CXXFLAGS` set. -/
def envC4x : EnvMap :=
  ⟨fun k => if k = "CXXFLAGS" then "-DTEST_FLAG -march=native" else ""⟩

/-- C4 (code bug): `assembleFlags` appends `CXXFLAGS` tokens verbatim, in
order, at the end of the compile-flag list, but it never consults `CFLAGS`
(even for C projects) or `LDFLAGS` — with `CFLAGS`/`LDFLAGS` set the flag
lists are returned unchanged, contradicting the repository's own
`TestAssembleFlags_CFLAGS` and `TestAssembleFlags_LDFLAGS`. -/
theorem appendEnvFlags_ignores_cflags_ldflags :
    appendEnvFlags envC4 ["-O2"] ["-lm"] = (["-O2"], ["-lm"])
    ∧ appendEnvFlags envC4x ["-O2"] ["-lm"]
      = (["-O2", "-DTEST_FLAG", "-march=native"], ["-lm"]) := by
  refine ⟨by decide, by decide⟩

/-! ## IncludeResolver: `collectExternalIncludes` (detect.go lines 306-410) -/

/-- The `stdHeaders` allow-list from detect.go, in source order. -/
def stdHeaders : List String :=
  ["assert.h", "complex.h", "ctype.h", "errno.h",
   "fenv.h", "float.h", "inttypes.h", "iso646.h",
   "limits.h", "locale.h", "math.h", "setjmp.h",
   "signal.h", "stdalign.h", "stdarg.h", "stdatomic.h",
   "stdbool.h", "stddef.h", "stdint.h", "stdio.h",
   "stdlib.h", "stdnoreturn.h", "string.h", "tgmath.h",
   "threads.h", "time.h", "uchar.h", "wchar.h",
   "wctype.h", "cstdlib", "csignal", "csetjmp",
   "cstdarg", "typeinfo", "typeindex", "type_traits",
   "bitset", "functional", "utility", "ctime",
   "chrono", "cstddef", "initializer_list", "tuple",
   "any", "optional", "variant", "new",
   "memory", "scoped_allocator", "memory_resource",
   "climits", "cfloat", "cstring", "cctype",
   "cstdint", "cinttypes", "limits", "exception",
   "stdexcept", "cassert", "system_error", "cerrno",
   "array", "vector", "deque", "list",
   "forward_list", "set", "map", "unordered_set",
   "unordered_map", "stack", "queue", "algorithm",
   "execution", "iterator", "cmath", "complex",
   "valarray", "random", "numeric", "ratio",
   "cfenv", "iosfwd", "ios", "istream",
   "ostream", "iostream", "fstream", "sstream",
   "iomanip", "streambuf", "cstdio", "locale",
   "clocale", "regex", "atomic", "thread",
   "mutex", "shared_mutex", "future",
   "condition_variable", "filesystem", "compare",
   "charconv", "syncstream", "strstream", "codecvt",
   "string", "windows.h", "format", "version",
   "source_location", "span", "ranges", "bit",
   "numbers", "stop_token", "semaphore", "latch",
   "barrier", "concepts", "coroutine", "stacktrace",
   "dlfcn.h", "pthread.h", "glibc"]

/-- Oracle environment for include resolution: `cpp f` is the result of the
preprocessor-assisted pass (`none` models a failed run or one that yields no
includes — Go's nil slice, which triggers the textual fallback); `content` is
the file contents for the textual scan; `fexists` is `fileExists`;
`win64Skip` is the `win64SkipHeaders` table, whose definition lives outside
the sources at hand and is kept abstract. -/
structure IncEnv where
  cpp : String → Option (List String)
  content : String → Option String
  fexists : String → Bool
  win64Skip : String → Bool

/-- Characters after the first occurrence of `c`, when it occurs. -/
def afterChar (c : Char) : List Char → Option (List Char)
  | [] => none
  | x :: rest => if x = c then some rest else afterChar c rest

/-- Characters before the first occurrence of `c`, when it occurs. -/
def takeBefore (c : Char) : List Char → Option (List Char)
  | [] => none
  | x :: rest => if x = c then some [] else (takeBefore c rest).map (fun l => x :: l)

/-- `directScanIncludes`: collect the token between `<` and `>` on trimmed
lines starting with `#include`. -/
def directScanIncludes (env : IncEnv) (filename : String) : List String :=
  match env.content filename with
  | none => []
  | some data =>
    (goLines data).foldr (fun line acc =>
      let l := strTrim line
      if !(strStarts l "#include") then acc
      else
        match afterChar '<' l.toList with
        | none => acc
        | some rest =>
          match takeBefore '>' rest with
          | none => acc
          | some inside => String.mk inside :: acc) []

/-- `isLocalInclude`: the header resolves to an existing file under some
configured local include directory. -/
def isLocalInclude (env : IncEnv) (inc : String) : Bool :=
  localIncludePaths.any (fun lp => env.fexists (pathJoin lp inc))

/-- The inner filter loop of `collectExternalIncludes` over one file's
includes, threading the `seen` set and the ordered result. -/
def ceInner (env : IncEnv) (win64 : Bool) :
    List String → List String → List String → (List String × List String)
  | [], seen, result => (seen, result)
  | inc :: rest, seen, result =>
    if stdHeaders.contains inc then ceInner env win64 rest seen result
    else if win64 && env.win64Skip inc then ceInner env win64 rest seen result
    else if isLocalInclude env inc then ceInner env win64 rest seen result
    else if seen.contains inc then ceInner env win64 rest seen result
    else ceInner env win64 rest (inc :: seen) (result ++ [inc])

/-- The outer loop of `collectExternalIncludes` over the source files. -/
def ceOuter (env : IncEnv) (win64 : Bool) :
    List String → List String → List String → (List String × List String)
  | [], seen, result => (seen, result)
  | sf :: rest, seen, result =>
    if sf = "" then ceOuter env win64 rest seen result
    else
      let lines := match env.cpp sf with
        | some ls => ls
        | none => directScanIncludes env sf
      let p := ceInner env win64 lines seen result
      ceOuter env win64 rest p.1 p.2

/-- `collectExternalIncludes` from detect.go: preprocessor-assisted include
lines (textual fallback), filtered against the standard-library allow-list,
the win64 skip table, and local resolvability, de-duplicated in first-seen
order across all files. -/
def collectExternalIncludes (env : IncEnv) (sourceFiles : List String)
    (win64 : Bool) : List String :=
  (ceOuter env win64 sourceFiles [] []).2

lemma ceInner_inv (env : IncEnv) (win64 : Bool) (lines : List String) :
    ∀ seen result,
      (∀ x ∈ result, stdHeaders.contains x = false ∧ isLocalInclude env x = false) →
      ∀ x ∈ (ceInner env win64 lines seen result).2,
        stdHeaders.contains x = false ∧ isLocalInclude env x = false := by
  induction lines with
  | nil => intro seen result hres; exact hres
  | cons inc rest ih =>
    intro seen result hres
    unfold ceInner
    by_cases h1 : stdHeaders.contains inc = true
    · rw [if_pos h1]; exact ih seen result hres
    · rw [if_neg h1]
      by_cases h2 : (win64 && env.win64Skip inc) = true
      · rw [if_pos h2]; exact ih seen result hres
      · rw [if_neg h2]
        by_cases h3 : isLocalInclude env inc = true
        · rw [if_pos h3]; exact ih seen result hres
        · rw [if_neg h3]
          by_cases h4 : seen.contains inc = true
          · rw [if_pos h4]; exact ih seen result hres
          · rw [if_neg h4]
            refine ih _ _ ?_
            intro x hx
            rcases List.mem_append.mp hx with hx | hx
            · exact hres x hx
            · have : x = inc := by simpa using hx
              subst this
              exact ⟨Bool.not_eq_true _ ▸ h1, Bool.not_eq_true _ ▸ h3⟩

lemma ceOuter_inv (env : IncEnv) (win64 : Bool) (files : List String) :
    ∀ seen result,
      (∀ x ∈ result, stdHeaders.contains x = false ∧ isLocalInclude env x = false) →
      ∀ x ∈ (ceOuter env win64 files seen result).2,
        stdHeaders.contains x = false ∧ isLocalInclude env x = false := by
  induction files with
  | nil => intro seen result hres; exact hres
  | cons sf rest ih =>
    intro seen result hres
    unfold ceOuter
    by_cases h : sf = ""
    · rw [if_pos h]; exact ih seen result hres
    · rw [if_neg h]
      exact ih _ _ (ceInner_inv env win64 _ seen result hres)

/-- C6: `Project.Includes`, as produced by `collectExternalIncludes`, never
contains a header from the standard-library allow-list and never contains a
header that resolves to an existing file under a configured local include
directory. -/
theorem collectExternalIncludes_inv (env : IncEnv) (sourceFiles : List String)
    (win64 : Bool) (h : String)
    (hmem : h ∈ collectExternalIncludes env sourceFiles win64) :
    stdHeaders.contains h = false ∧ isLocalInclude env h = false :=
  ceOuter_inv env win64 sourceFiles [] [] (by intro x hx; cases hx) h hmem

/-- Concrete include environment for the C6 witness: one source including
`SDL2/SDL.h` (external) and `cmath` (standard); no preprocessor, nothing
resolvable locally. -/
def envC6 : IncEnv where
  cpp := fun _ => none
  content := fun f =>
    if f = "main.cpp" then
      some "#include <SDL2/SDL.h>\n#include <cmath>\nint main() \x7b\x7d\n"
    else none
  fexists := fun _ => false
  win64Skip := fun _ => false

theorem collectExternalIncludes_inv_witness :
    stdHeaders.contains "SDL2/SDL.h" = false
    ∧ isLocalInclude envC6 "SDL2/SDL.h" = false :=
  collectExternalIncludes_inv envC6 ["main.cpp"] false "SDL2/SDL.h" (by decide)

/-! ## PackageMapper tiers (part_004 lines 53-315, platform.go lines 47-106,
assembleFlags lines 412-436)

`ResolveEnv` carries the external observations: `pkgcfg` is
`pkgConfigFlags`, `fexists` is `fileExists`, `sysIncDirs` is
`systemIncludeDirs()`, `platformResolve p` is `platformResolve(platform, p,
cxx)` for the detected platform and compiler, and `findFile d inc` is
`findIncludeFile(d, inc)`. -/

structure ResolveEnv where
  hasPkgConfig : Bool
  pkgcfg : String → String
  fexists : String → Bool
  isDarwin : Bool
  sysIncDirs : List String
  platformResolve : String → String
  findFile : String → String → String

/-- The exact-match header→package table of `pkgNameFromInclude`
(keys are the lower-cased header names). -/
def staticHeaderTable : List (String × String) :=
  [("sdl2/sdl.h", "sdl2"), ("sdl2/sdl_image.h", "SDL2_image"),
   ("sdl2/sdl_mixer.h", "SDL2_mixer"), ("sdl2/sdl_ttf.h", "SDL2_ttf"),
   ("sdl2/sdl_net.h", "SDL2_net"), ("gtk/gtk.h", "gtk4"),
   ("gl/gl.h", "gl"), ("gl/glew.h", "glew"), ("gl/glut.h", "glu"),
   ("gl/freeglut.h", "freeglut"), ("glfw/glfw3.h", "glfw3"),
   ("al/al.h", "openal"), ("al/alc.h", "openal"),
   ("vulkan/vulkan.h", "vulkan"), ("x11/xlib.h", "x11"),
   ("x11/xutil.h", "x11"), ("libconfig.h++", "libconfig++"),
   ("libconfig.h", "libconfig"), ("fcgiapp.h", "fcgi"),
   ("pipewire/pipewire.h", "libpipewire-0.3"),
   ("rtaudio/rtaudio.h", "rtaudio"), ("raylib.h", "raylib")]

/-- `filepath.Base` for the slash-separated names used here. -/
def pathBase (p : String) : String :=
  String.mk ((splitOnChar '/' p.toList).getLastD [])

/-- `pkgNameFromInclude` from part_004: static table, then the SFML / SDL2 /
GLM pattern rules, the Qt and boost exclusions, and the first-path-component
fallback. -/
def pkgNameFromInclude (inc : String) : String :=
  let lower := strLower inc
  match staticHeaderTable.find? (fun e => e.1 = lower) with
  | some e => e.2
  | none =>
    if strStarts lower "sfml/" then
      "sfml-" ++ strLower (goTrimSuffix (pathBase inc) (goExt (pathBase inc)))
    else if strStarts lower "sdl2/sdl_" then
      goTrimSuffix ("SDL2_" ++ strDropN inc 9) (goExt ("SDL2_" ++ strDropN inc 9))
    else if strStarts lower "glm/" then "glm"
    else if strStarts inc "Q" then ""
    else if strStarts lower "boost/" then ""
    else if strContains inc "/" then String.mk ((splitOnChar '/' inc.toList).headD [])
    else ""

/-- The library directories probed by the non-framework, non-pkg-config
fallbacks in `resolveExtraFlags`. -/
def probeLibDirs : List String :=
  ["/usr/lib", "/usr/lib/x86_64-linux-gnu", "/usr/local/lib", "/usr/pkg/lib"]

/-- One iteration of `resolveExtraFlags`' include loop (part_004 lines
144-312), applying each special-case block in source order to the
accumulated (cflags, ldflags) pair. -/
def extraOne (env : ResolveEnv) (win64 : Bool)
    (p : List String × List String) (inc : String) : List String × List String :=
  let hasPkg := env.hasPkgConfig
  let hasFrameworks := env.fexists "/Library/Frameworks"
  let hasSysFrameworks := env.fexists "/System/Library/Frameworks"
  let lower := strLower inc
  -- thread support
  let p :=
    if inc = "thread" || inc = "mutex" || inc = "future" ||
        inc = "condition_variable" || inc = "pthread.h" || inc = "new" ||
        inc = "dlfcn.h" then
      (p.1, appendUnique (appendUnique (appendUnique p.2 "-ldl") "-pthread") "-lpthread")
    else p
  -- SFML
  let p :=
    if strStarts lower "sfml/" then
      let p :=
        if hasFrameworks && !win64 then
          (appendUnique p.1 "-I/usr/local/include",
           appendUnique (appendUnique (appendUnique p.2 "-F/Library/Frameworks")
             "-framework") "OpenGL")
        else if win64 then (p.1, appendUnique p.2 "-lopengl32")
        else p
      if hasPkg then
        if env.pkgcfg "gl" ≠ "" then mergeFlags p.1 p.2 (env.pkgcfg "gl") else p
      else p
    else p
  -- OpenGL / GLUT / GLFW
  let p :=
    if strStarts lower "gl/" || strStarts lower "opengl/" ||
        strStarts lower "glut/" || strStarts lower "glfw/" ||
        strContains lower "opengl" then
      if hasFrameworks && !win64 then
        (appendUnique p.1 "-I/usr/local/include",
         appendUnique (appendUnique (appendUnique p.2 "-F/Library/Frameworks")
           "-framework") "OpenGL")
      else if win64 then (p.1, appendUnique p.2 "-lopengl32")
      else if hasPkg then
        if env.pkgcfg "gl" ≠ "" then mergeFlags p.1 p.2 (env.pkgcfg "gl") else p
      else
        match probeLibDirs.find? (fun lp => env.fexists (pathJoin lp "libGL.so")) with
        | some _ => (p.1, appendUnique p.2 "-lGL")
        | none => p
    else p
  -- GLUT specifically
  let p :=
    if strEnds lower "/glut.h" || strEnds lower "/freeglut.h" ||
        strStarts lower "glut/" then
      if hasFrameworks && !win64 then
        (p.1, appendUnique (appendUnique p.2 "-framework") "GLUT")
      else if win64 then (p.1, appendUnique p.2 "-lglu32")
      else if hasPkg then
        if env.pkgcfg "glu" ≠ "" then mergeFlags p.1 p.2 (env.pkgcfg "glu")
        else if env.pkgcfg "freeglut" ≠ "" then mergeFlags p.1 p.2 (env.pkgcfg "freeglut")
        else p
      else
        match probeLibDirs.find? (fun lp => env.fexists (pathJoin lp "libglut.so")) with
        | some _ => (p.1, appendUnique p.2 "-lglut")
        | none => p
    else p
  -- GLEW
  let p :=
    if strEnds lower "/glew.h" then
      let p := if win64 then (p.1, appendUnique p.2 "-lglew32") else p
      if hasPkg then
        if env.pkgcfg "glew" ≠ "" then mergeFlags p.1 p.2 (env.pkgcfg "glew") else p
      else p
    else p
  -- OpenAL
  let p :=
    if strStarts lower "al/" || strStarts lower "openal" ||
        strContains lower "/al.h" then
      if hasSysFrameworks && !win64 then
        (appendUnique p.1 "-I/System/Library/Frameworks/OpenAL.framework/Headers",
         appendUnique (appendUnique (appendUnique p.2 "-F/System/Library/Frameworks")
           "-framework") "OpenAL")
      else if win64 then (p.1, appendUnique p.2 "-lopenal32")
      else if hasPkg then
        if env.pkgcfg "openal" ≠ "" then mergeFlags p.1 p.2 (env.pkgcfg "openal") else p
      else
        match probeLibDirs.find? (fun lp => env.fexists (pathJoin lp "libopenal.so")) with
        | some _ => (p.1, appendUnique p.2 "-lopenal")
        | none => p
    else p
  -- GTK export-dynamic
  let p :=
    if lower = "gtk/gtk.h" then (p.1, appendUnique p.2 "-Wl,-export-dynamic") else p
  -- SDL2_* sub-libraries
  let p :=
    if strStarts lower "sdl2/sdl_" && hasPkg then
      let word := goTrimSuffix ("SDL2_" ++ strDropN inc 9) (goExt ("SDL2_" ++ strDropN inc 9))
      if env.pkgcfg word ≠ "" then mergeFlags p.1 p.2 (env.pkgcfg word) else p
    else p
  -- Vulkan
  let p :=
    if strStarts lower "vulkan/" then
      if hasPkg then
        if env.pkgcfg "vulkan" ≠ "" then mergeFlags p.1 p.2 (env.pkgcfg "vulkan") else p
      else (p.1, appendUnique p.2 "-lvulkan")
    else p
  -- Qt warning suppressions and include dir
  let p :=
    if strStarts inc "Q" then
      let c := appendUnique (appendUnique p.1 "-Wno-class-memaccess") "-Wno-pedantic"
      let c := env.sysIncDirs.foldl (fun c d =>
        if env.fexists (pathJoin d "qt") then appendUnique c ("-I" ++ pathJoin d "qt")
        else c) c
      (c, p.2)
    else p
  -- GLM shadow suppression
  let p :=
    if strStarts lower "glm/" then (appendUnique p.1 "-Wno-shadow", p.2) else p
  -- macOS framework detection for arbitrary includes
  if env.isDarwin && hasFrameworks && !win64 then
    let firstWord :=
      if strContains inc "/" then String.mk ((splitOnChar '/' lower.toList).headD [])
      else lower
    if env.fexists ("/Library/Frameworks/" ++ firstWord ++ ".framework") then
      (appendUnique p.1 "-I/usr/local/include",
       appendUnique (appendUnique (appendUnique p.2 "-F/Library/Frameworks")
         "-framework") firstWord)
    else p
  else p

/-- `resolveExtraFlags` from part_004: the special-case tier over the whole
include list. -/
def resolveExtraFlags (env : ResolveEnv) (includes : List String)
    (win64 : Bool) : List String × List String :=
  includes.foldl (extraOne env win64) ([], [])

/-- First pass of `resolveIncludesViaPackageManager`: direct join of the
header under each system include directory, first non-empty result wins. -/
def pmPass1 (env : ResolveEnv) (inc : String) : List String → String
  | [] => ""
  | d :: rest =>
    let flags := env.platformResolve (pathJoin d inc)
    if flags ≠ "" then flags else pmPass1 env inc rest

/-- Second pass: bounded `find` under each system include directory, then
resolve; directories where the find or the resolution fails are skipped. -/
def pmPass2 (env : ResolveEnv) (inc : String) : List String → String
  | [] => ""
  | d :: rest =>
    let fp := env.findFile d inc
    if fp = "" then pmPass2 env inc rest
    else
      let flags := env.platformResolve fp
      if flags ≠ "" then flags else pmPass2 env inc rest

/-- The include loop of `resolveIncludesViaPackageManager`, threading the
`resolved` set and the accumulated flag lists. -/
def pmGo (env : ResolveEnv) (dirs : List String) :
    List String → List String → List String → List String →
    (List String × List String)
  | [], _, c, l => (c, l)
  | inc :: rest, resolved, c, l =>
    if inc ∈ resolved then pmGo env dirs rest resolved c l
    else
      let f1 := pmPass1 env inc dirs
      if f1 ≠ "" then
        let p := mergeFlags c l f1
        pmGo env dirs rest (inc :: resolved) p.1 p.2
      else
        let f2 := pmPass2 env inc dirs
        if f2 ≠ "" then
          let p := mergeFlags c l f2
          pmGo env dirs rest (inc :: resolved) p.1 p.2
        else pmGo env dirs rest resolved c l

/-- `resolveIncludesViaPackageManager` from platform.go: nothing without
pkg-config; otherwise every header in `includes` is resolved through the
platform package manager (direct path lookup first, then `find`). -/
def resolveIncludesViaPackageManager (env : ResolveEnv)
    (includes dirs : List String) : List String × List String :=
  if !env.hasPkgConfig then ([], [])
  else pmGo env dirs includes [] [] []

/-- The static-table + pkg-config tier of `assembleFlags` (lines 413-426):
query pkg-config once per distinct non-empty package name and merge. -/
def tier12Go (env : ResolveEnv) :
    List String → List String → List String → List String →
    (List String × List String)
  | [], _, c, l => (c, l)
  | inc :: rest, seen, c, l =>
    let pkgName := pkgNameFromInclude inc
    if pkgName = "" || pkgName ∈ seen then tier12Go env rest seen c l
    else
      let flags := env.pkgcfg pkgName
      if flags ≠ "" then
        let p := mergeFlags c l flags
        tier12Go env rest (pkgName :: seen) p.1 p.2
      else tier12Go env rest (pkgName :: seen) c l

/-- The external-include resolution sequence of `assembleFlags` (part_001
lines 412-436): pkg-config by static name, then the special-case tier, then
the platform package-manager tier, each appending to the flag lists. -/
def assembleExternalFlags (env : ResolveEnv) (win64 : Bool)
    (includes c0 l0 : List String) : List String × List String :=
  let p1 := if env.hasPkgConfig then tier12Go env includes [] c0 l0 else (c0, l0)
  let pe := resolveExtraFlags env includes win64
  let c2 := p1.1 ++ pe.1
  let l2 := p1.2 ++ pe.2
  let pm := resolveIncludesViaPackageManager env includes env.sysIncDirs
  (c2 ++ pm.1, l2 ++ pm.2)

/-- Environment for the C3 counterexample: the static table resolves
`GL/glut.h` to `glu` with non-empty pkg-config output `-lglu`, while the
platform package manager independently resolves the same header under
`/usr/include` to `-lcustomglut`. -/
def envC3 : ResolveEnv where
  hasPkgConfig := true
  pkgcfg := fun pkg => if pkg = "glu" then "-lglu" else ""
  fexists := fun _ => false
  isDarwin := false
  sysIncDirs := ["/usr/include"]
  platformResolve := fun p => if p = "/usr/include/GL/glut.h" then "-lcustomglut" else ""
  findFile := fun _ _ => ""

/-- C3 counterexample: although the static table yields a non-empty
pkg-config result for `GL/glut.h`, the platform package-manager tier is
still applied to that header and its flags reach the final link-flag list —
there is no per-header short-circuit between those tiers. -/
theorem packageManagerTier_applied_counterexample :
    pkgNameFromInclude "GL/glut.h" = "glu"
    ∧ envC3.pkgcfg "glu" = "-lglu"
    ∧ (resolveIncludesViaPackageManager envC3 ["GL/glut.h"] envC3.sysIncDirs).2
      = ["-lcustomglut"]
    ∧ "-lcustomglut" ∈ (assembleExternalFlags envC3 false ["GL/glut.h"] [] []).2 := by
  refine ⟨by decide, by decide, by decide, by decide⟩

lemma tier12Go_front (env : ResolveEnv) (includes : List String) :
    ∀ seen c l, c <+: (tier12Go env includes seen c l).1
      ∧ l <+: (tier12Go env includes seen c l).2 := by
  induction includes with
  | nil => intro seen c l; exact ⟨List.prefix_rfl, List.prefix_rfl⟩
  | cons inc rest ih =>
    intro seen c l
    unfold tier12Go
    by_cases h1 : (pkgNameFromInclude inc = "" || pkgNameFromInclude inc ∈ seen) = true
    · rw [if_pos h1]; exact ih seen c l
    · rw [if_neg h1]
      by_cases h2 : env.pkgcfg (pkgNameFromInclude inc) ≠ ""
      · rw [if_pos h2]
        have hm := mergeFold_front (goFields (env.pkgcfg (pkgNameFromInclude inc))) (c, l)
        have hrec := ih (pkgNameFromInclude inc :: seen)
          (mergeFlags c l (env.pkgcfg (pkgNameFromInclude inc))).1
          (mergeFlags c l (env.pkgcfg (pkgNameFromInclude inc))).2
        exact ⟨hm.1.trans hrec.1, hm.2.trans hrec.2⟩
      · rw [if_neg h2]
        exact ih (pkgNameFromInclude inc :: seen) c l

/-- C3 (amended): tier precedence in `assembleFlags` is positional, not
short-circuiting: the flags produced by the earlier tiers (and the incoming
lists) keep their places at the front, while the platform package-manager
tier is applied to the full include list regardless of earlier results and
its flags are all present at the end; within the package-manager tier a
header that already resolved is not resolved a second time. -/
theorem assembleExternalFlags_tiers (env : ResolveEnv) (win64 : Bool)
    (includes c0 l0 : List String) :
    (∀ f ∈ (resolveIncludesViaPackageManager env includes env.sysIncDirs).1,
      f ∈ (assembleExternalFlags env win64 includes c0 l0).1)
    ∧ (∀ f ∈ (resolveIncludesViaPackageManager env includes env.sysIncDirs).2,
      f ∈ (assembleExternalFlags env win64 includes c0 l0).2)
    ∧ c0 <+: (assembleExternalFlags env win64 includes c0 l0).1
    ∧ l0 <+: (assembleExternalFlags env win64 includes c0 l0).2
    ∧ (∀ inc rest, resolveIncludesViaPackageManager env (inc :: inc :: rest) env.sysIncDirs
        = resolveIncludesViaPackageManager env (inc :: rest) env.sysIncDirs) := by
  refine ⟨?_, ?_, ?_, ?_, ?_⟩
  · intro f hf
    unfold assembleExternalFlags
    exact List.mem_append_right _ hf
  · intro f hf
    unfold assembleExternalFlags
    exact List.mem_append_right _ hf
  · have key : (assembleExternalFlags env win64 includes c0 l0).1
        = ((if env.hasPkgConfig then tier12Go env includes [] c0 l0 else (c0, l0)).1
            ++ (resolveExtraFlags env includes win64).1)
          ++ (resolveIncludesViaPackageManager env includes env.sysIncDirs).1 := rfl
    have h0 : c0 <+: (if env.hasPkgConfig then tier12Go env includes [] c0 l0 else (c0, l0)).1 := by
      by_cases h : env.hasPkgConfig = true
      · rw [if_pos h]; exact (tier12Go_front env includes [] c0 l0).1
      · rw [if_neg h]
    rw [key]
    exact h0.trans ((List.prefix_append _ _).trans (List.prefix_append _ _))
  · have key : (assembleExternalFlags env win64 includes c0 l0).2
        = ((if env.hasPkgConfig then tier12Go env includes [] c0 l0 else (c0, l0)).2
            ++ (resolveExtraFlags env includes win64).2)
          ++ (resolveIncludesViaPackageManager env includes env.sysIncDirs).2 := rfl
    have h0 : l0 <+: (if env.hasPkgConfig then tier12Go env includes [] c0 l0 else (c0, l0)).2 := by
      by_cases h : env.hasPkgConfig = true
      · rw [if_pos h]; exact (tier12Go_front env includes [] c0 l0).2
      · rw [if_neg h]
    rw [key]
    exact h0.trans ((List.prefix_append _ _).trans (List.prefix_append _ _))
  · intro inc rest
    unfold resolveIncludesViaPackageManager
    by_cases h : (!env.hasPkgConfig) = true
    · rw [if_pos h, if_pos h]
    · rw [if_neg h, if_neg h]
      show pmGo env env.sysIncDirs (inc :: inc :: rest) [] [] []
        = pmGo env env.sysIncDirs (inc :: rest) [] [] []
      conv_lhs => rw [pmGo]
      rw [if_neg (by simp)]
      by_cases h1 : pmPass1 env inc env.sysIncDirs ≠ ""
      · rw [if_pos h1]
        conv_lhs => rw [pmGo]
        rw [if_pos (by simp)]
        conv_rhs => rw [pmGo]
        rw [if_neg (by simp), if_pos h1]
      · rw [if_neg h1]
        by_cases h2 : pmPass2 env inc env.sysIncDirs ≠ ""
        · rw [if_pos h2]
          conv_lhs => rw [pmGo]
          rw [if_pos (by simp)]
          conv_rhs => rw [pmGo]
          rw [if_neg (by simp), if_neg h1, if_pos h2]
        · rw [if_neg h2]

theorem assembleExternalFlags_tiers_witness :
    "-lcustomglut" ∈ (assembleExternalFlags envC3 false ["GL/glut.h"] ["-O2"] ["-lm"]).2
    ∧ ["-O2"] <+: (assembleExternalFlags envC3 false ["GL/glut.h"] ["-O2"] ["-lm"]).1 :=
  have h := assembleExternalFlags_tiers envC3 false ["GL/glut.h"] ["-O2"] ["-lm"]
  ⟨h.2.1 "-lcustomglut" (by decide), h.2.2.1⟩

end Orchideous
